import Mathlib

/-!
Verification of the static-analysis core of the code-review agent
(`app/analyzers.py`, `app/agent.py`).

The Python code is shallowly embedded: each analyzer becomes a Lean
function over an abstract syntax tree type mirroring the subset of
Python `ast` nodes the analyzers inspect.  Parsing (`ast.parse`) is an
external library facility; a file's parse outcome is modelled as an
`Except ParseErr (List PStmt)` value supplied with the input.  The set
`dir(__builtins__)` is environment-dependent in Python, so it is a
parameter (`b : List String`) of the Bug analyzer; the
`common_modules` literal from the source is embedded verbatim.
Python exceptions escaping an analyzer are modelled with `Except`:
the only analyzer in this subset that can raise on a parsed tree is the
Performance analyzer (its `visit_For` evaluates `ast.Append`, an
attribute that does not exist on the `ast` module, raising
`AttributeError` whenever a `for` body has exactly one statement).
-/

/-- The finding record produced by `BaseAnalyzer._format_issue`, plus the
`analyzer` tag the aggregator adds (`""` = key absent). -/
structure Finding where
  type : String
  line : Nat
  description : String
  suggestion : String
  severity : String
  analyzer : String := ""
deriving DecidableEq, Repr

/-- Outcome of a failed `ast.parse`: the `SyntaxError`'s `lineno`
(`none` = `None`) and the rendering `str(e)`. -/
structure ParseErr where
  lineno : Option Nat
  msg : String
deriving DecidableEq, Repr

/-- Python truthiness of `e.lineno or 1`: `None` and `0` both give `1`. -/
def pyOrOne : Option Nat → Nat
  | none => 1
  | some n => if n = 0 then 1 else n

/-- Expression contexts of `ast.Name` nodes. -/
inductive Ctx where
  | load
  | store
  | del
deriving DecidableEq, Repr

mutual
/-- Subset of Python expression nodes inspected by the analyzers.
`numConst`/`strConst` stand for `ast.Constant`. -/
inductive PExpr : Type where
  | name (id : String) (ctx : Ctx) (lineno : Nat) : PExpr
  | attr (value : PExpr) (attrName : String) (ctx : Ctx) (lineno : Nat) : PExpr
  | call (func : PExpr) (args : List PExpr) (lineno : Nat) : PExpr
  | listComp (elt : PExpr) (gens : List PComp) (lineno : Nat) : PExpr
  | numConst (lineno : Nat) : PExpr
  | strConst (s : String) (lineno : Nat) : PExpr
deriving Repr

/-- `ast.comprehension` (fields, in `_fields` order: target, iter, ifs).
It carries no `lineno` of its own. -/
inductive PComp : Type where
  | mk (target : PExpr) (iterE : PExpr) (ifs : List PExpr) : PComp
deriving Repr

/-- Subset of Python statement nodes inspected by the analyzers.
`_fields` orders (driving `generic_visit`): `Assign(targets, value)`,
`For(target, iter, body, orelse)`, `ListComp(elt, generators)`. -/
inductive PStmt : Type where
  | functionDef (fname : String) (args : List String) (body : List PStmt)
      (lineno : Nat) : PStmt
  | classDef (cname : String) (bases : List PExpr) (body : List PStmt)
      (lineno : Nat) : PStmt
  | assign (targets : List PExpr) (value : PExpr) (lineno : Nat) : PStmt
  | exprStmt (value : PExpr) (lineno : Nat) : PStmt
  | forStmt (target : PExpr) (iterE : PExpr) (body : List PStmt)
      (orelse : List PStmt) (lineno : Nat) : PStmt
  | importStmt (names : List (String × Option String)) (lineno : Nat) : PStmt
  | importFrom (modName : String) (names : List (String × Option String))
      (lineno : Nat) : PStmt
  | delStmt (targets : List PExpr) (lineno : Nat) : PStmt
  | returnStmt (value : Option PExpr) (lineno : Nat) : PStmt
  | passStmt (lineno : Nat) : PStmt
deriving Repr
end

/-! ## Bug (scope-tracking) analyzer — `BugAnalyzer` / `BugFinder` -/

/-- The `common_modules` literal of `BugFinder.__init__`. -/
def commonModules : List String :=
  ["os", "sys", "re", "math", "random", "datetime",
   "json", "collections", "itertools", "functools",
   "analyze_code"]

/-- Mutable state of a `BugFinder` traversal: the scope stack (head =
innermost scope, mirroring `scope_stack[-1]`), the `defined_functions`
registry, and the issues accumulated so far (in append order). -/
structure BFState where
  scopeStack : List (List String)
  definedFunctions : List String
  issues : List Finding
deriving Repr

/-- `BugFinder.__init__`: `scope_stack = [set()]`, empty registry, no issues. -/
def initBF : BFState := ⟨[[]], [], []⟩

/-- `enter_scope`: push a fresh empty scope. -/
def enterScope (st : BFState) : BFState :=
  { st with scopeStack := [] :: st.scopeStack }

/-- `exit_scope`: pop the innermost scope.  (The stack is never empty at
a pop site: the initial frame of `__init__` is below every push.) -/
def exitScope (st : BFState) : BFState :=
  { st with scopeStack := st.scopeStack.tail }

/-- `add_to_current_scope`: add a name to the innermost scope. -/
def addToCurrentScope (st : BFState) (n : String) : BFState :=
  match st.scopeStack with
  | [] => st
  | s :: rest => { st with scopeStack := (n :: s) :: rest }

/-- `is_defined`: built-ins (`b`), `common_modules`, `defined_functions`,
or any scope on the stack. -/
def isDefined (b : List String) (st : BFState) (n : String) : Bool :=
  b.contains n || commonModules.contains n ||
    st.definedFunctions.contains n || st.scopeStack.any (·.contains n)

/-- The finding `visit_Name` appends for an undefined load. -/
def undefinedFinding (id : String) (ln : Nat) : Finding :=
  { type := "bug", line := ln,
    description := "Potential use of undefined variable '" ++ id ++ "'",
    suggestion := "Ensure '" ++ id ++ "' is defined before use",
    severity := "high" }

mutual
/-- One step of the `BugFinder` traversal on an expression node
(`visit_Name` / `visit_Attribute`, or `generic_visit` in `_fields`
order for node kinds without a dedicated handler). -/
def bfExpr (b : List String) (st : BFState) : PExpr → BFState
  | .name id ctx ln =>
    match ctx with
    | .store => addToCurrentScope st id
    | .load =>
      if isDefined b st id then st
      else { st with issues := st.issues ++ [undefinedFinding id ln] }
    | .del => st
  | .attr v _ _ _ => bfExpr b st v
  | .call f args _ => bfExprs b (bfExpr b st f) args
  | .listComp elt gens _ => bfComps b (bfExpr b st elt) gens
  | .numConst _ => st
  | .strConst _ _ => st

def bfExprs (b : List String) (st : BFState) : List PExpr → BFState
  | [] => st
  | e :: es => bfExprs b (bfExpr b st e) es

def bfComps (b : List String) (st : BFState) : List PComp → BFState
  | [] => st
  | .mk t it ifs :: cs =>
    bfComps b (bfExprs b (bfExpr b (bfExpr b st t) it) ifs) cs

/-- One step of the `BugFinder` traversal on a statement node. -/
def bfStmt (b : List String) (st : BFState) : PStmt → BFState
  | .functionDef fn args body _ =>
    let st1 := { st with definedFunctions := st.definedFunctions ++ [fn] }
    let st2 := args.foldl addToCurrentScope (enterScope st1)
    exitScope (bfStmts b st2 body)
  | .classDef cn bases body _ =>
    let st1 := { st with definedFunctions := st.definedFunctions ++ [cn] }
    exitScope (bfStmts b (bfExprs b (enterScope st1) bases) body)
  | .assign ts v _ => bfExpr b (bfExprs b st ts) v
  | .exprStmt e _ => bfExpr b st e
  | .forStmt t it body orelse _ =>
    bfStmts b (bfStmts b (bfExpr b (bfExpr b st t) it) body) orelse
  | .importStmt names _ =>
    names.foldl (fun s p => addToCurrentScope s (p.2.getD p.1)) st
  | .importFrom _ names _ =>
    names.foldl (fun s p => addToCurrentScope s (p.2.getD p.1)) st
  | .delStmt ts _ => bfExprs b st ts
  | .returnStmt v _ =>
    match v with
    | none => st
    | some e => bfExpr b st e
  | .passStmt _ => st

def bfStmts (b : List String) (st : BFState) : List PStmt → BFState
  | [] => st
  | s :: ss => bfStmts b (bfStmt b st s) ss
end

/-- `BugAnalyzer.analyze`: on `SyntaxError`, exactly one bug/critical
finding; otherwise run `BugFinder` (whose `visit_Module` wraps the body
in an extra scope) and return its issues. -/
def bugAnalyze (b : List String) (parsed : Except ParseErr (List PStmt)) :
    List Finding :=
  match parsed with
  | .error e =>
    [{ type := "bug", line := pyOrOne e.lineno,
       description := "Syntax error: " ++ e.msg,
       suggestion := "Fix the syntax error to ensure code can be executed",
       severity := "critical" }]
  | .ok body => (exitScope (bfStmts b (enterScope initBF) body)).issues

/-! ## Performance (pattern) analyzer — `PerformanceAnalyzer` / `PerformanceFinder`

`visit_For` tests `len(node.body) == 1` and then evaluates
`isinstance(node.body[0], ast.Append)`.  The `ast` module has no
attribute `Append`, so that expression raises `AttributeError` before
`isinstance` runs; the exception escapes `analyze` (only `SyntaxError`
is caught there).  The traversal is therefore modelled in `Except`,
with that `AttributeError`'s `str(e)` as the error value. -/

/-- `str(e)` of the `AttributeError` raised by evaluating `ast.Append`. -/
def astAppendError : String := "module 'ast' has no attribute 'Append'"

/-- Does `getattr(e.func, 'id', None) == 'len'` hold for a call node `e`? -/
def innerCallIsLen : PExpr → Bool
  | .call (.name id _ _) _ _ => id == "len"
  | _ => false

/-- Is this expression an `ast.ListComp`? -/
def isListComp : PExpr → Bool
  | .listComp _ _ _ => true
  | _ => false

/-- The `range(len(...))` finding of `PerformanceFinder.visit_Call`. -/
def rangeLenFinding (ln : Nat) : Finding :=
  { type := "performance", line := ln,
    description := "Inefficient range(len()) pattern detected",
    suggestion := "Use 'enumerate()' instead of range(len())",
    severity := "low" }

/-- The nested-comprehension finding of `PerformanceFinder.visit_ListComp`. -/
def nestedCompFinding (ln : Nat) : Finding :=
  { type := "performance", line := ln,
    description := "Nested list comprehension detected",
    suggestion := "Consider using regular loops for better readability and possibly better performance",
    severity := "medium" }

mutual
/-- `PerformanceFinder` traversal of an expression (`visit_Call`,
`visit_ListComp`, else `generic_visit`). -/
def perfExpr : PExpr → Except String (List Finding)
  | .name _ _ _ => .ok []
  | .attr v _ _ _ => perfExpr v
  | .call f args ln => do
    let here :=
      match f with
      | .name fid _ _ =>
        if fid == "range" && args.length == 1 then
          match args with
          | a :: _ =>
            match a with
            | .call _ _ _ => if innerCallIsLen a then [rangeLenFinding ln] else []
            | _ => []
          | [] => []
        else []
      | _ => []
    let rf ← perfExpr f
    let ra ← perfExprs args
    pure (here ++ rf ++ ra)
  | .listComp elt gens ln => do
    let here :=
      if gens.any (fun g => match g with | .mk _ it _ => isListComp it) then
        [nestedCompFinding ln]
      else []
    let re ← perfExpr elt
    let rg ← perfComps gens
    pure (here ++ re ++ rg)
  | .numConst _ => .ok []
  | .strConst _ _ => .ok []

def perfExprs : List PExpr → Except String (List Finding)
  | [] => .ok []
  | e :: es => do
    let r ← perfExpr e
    let rs ← perfExprs es
    pure (r ++ rs)

def perfComps : List PComp → Except String (List Finding)
  | [] => .ok []
  | .mk t it ifs :: cs => do
    let rt ← perfExpr t
    let ri ← perfExpr it
    let rf ← perfExprs ifs
    let rc ← perfComps cs
    pure (rt ++ ri ++ rf ++ rc)

/-- `PerformanceFinder` traversal of a statement.  `visit_For` raises
the `ast.Append` `AttributeError` whenever the loop body has exactly
one statement. -/
def perfStmt : PStmt → Except String (List Finding)
  | .functionDef _ _ body _ => perfStmts body
  | .classDef _ bases body _ => do
    let rb ← perfExprs bases
    let rs ← perfStmts body
    pure (rb ++ rs)
  | .assign ts v _ => do
    let rt ← perfExprs ts
    let rv ← perfExpr v
    pure (rt ++ rv)
  | .exprStmt e _ => perfExpr e
  | .forStmt t it body orelse _ =>
    if body.length = 1 then .error astAppendError
    else do
      let rt ← perfExpr t
      let ri ← perfExpr it
      let rb ← perfStmts body
      let ro ← perfStmts orelse
      pure (rt ++ ri ++ rb ++ ro)
  | .importStmt _ _ => .ok []
  | .importFrom _ _ _ => .ok []
  | .delStmt ts _ => perfExprs ts
  | .returnStmt v _ =>
    match v with
    | none => .ok []
    | some e => perfExpr e
  | .passStmt _ => .ok []

def perfStmts : List PStmt → Except String (List Finding)
  | [] => .ok []
  | s :: ss => do
    let r ← perfStmt s
    let rs ← perfStmts ss
    pure (r ++ rs)
end

/-- `PerformanceAnalyzer.analyze`: empty list on parse failure
(`SyntaxError` handled); on success the traversal, which can raise. -/
def perfAnalyze (parsed : Except ParseErr (List PStmt)) :
    Except String (List Finding) :=
  match parsed with
  | .error _ => .ok []
  | .ok body => perfStmts body

/-! ## Best-Practices (structural) analyzer — `BestPracticesAnalyzer` -/

mutual
/-- `max(child.lineno for child in ast.walk(node) if hasattr(child, 'lineno'))`
for an expression subtree (`ast.walk` includes the node itself). -/
def maxLineExpr : PExpr → Nat
  | .name _ _ ln => ln
  | .attr v _ _ ln => max ln (maxLineExpr v)
  | .call f args ln => max ln (max (maxLineExpr f) (maxLineExprs args))
  | .listComp elt gens ln => max ln (max (maxLineExpr elt) (maxLineComps gens))
  | .numConst ln => ln
  | .strConst _ ln => ln

def maxLineExprs : List PExpr → Nat
  | [] => 0
  | e :: es => max (maxLineExpr e) (maxLineExprs es)

/-- `ast.comprehension` has no `lineno`; only its children contribute. -/
def maxLineComps : List PComp → Nat
  | [] => 0
  | .mk t it ifs :: cs =>
    max (max (maxLineExpr t) (max (maxLineExpr it) (maxLineExprs ifs)))
      (maxLineComps cs)

def maxLineStmt : PStmt → Nat
  | .functionDef _ _ body ln => max ln (maxLineStmts body)
  | .classDef _ bases body ln =>
    max ln (max (maxLineExprs bases) (maxLineStmts body))
  | .assign ts v ln => max ln (max (maxLineExprs ts) (maxLineExpr v))
  | .exprStmt e ln => max ln (maxLineExpr e)
  | .forStmt t it body orelse ln =>
    max ln (max (max (maxLineExpr t) (maxLineExpr it))
      (max (maxLineStmts body) (maxLineStmts orelse)))
  | .importStmt _ ln => ln
  | .importFrom _ _ ln => ln
  | .delStmt ts ln => max ln (maxLineExprs ts)
  | .returnStmt v ln =>
    match v with
    | none => ln
    | some e => max ln (maxLineExpr e)
  | .passStmt ln => ln

def maxLineStmts : List PStmt → Nat
  | [] => 0
  | s :: ss => max (maxLineStmt s) (maxLineStmts ss)
end

/-- `not ast.get_docstring(node)`: the first body statement is not a
string-constant expression, or that string cleans to empty
(`inspect.cleandoc` of an all-whitespace string is `""`, which is falsy). -/
def missingDocstring : List PStmt → Bool
  | .exprStmt (.strConst s _) _ :: _ =>
    s.toList.all fun c =>
      c == ' ' || c == '\t' || c == '\n' || c == '\r' ||
        c.toNat == 11 || c.toNat == 12
  | _ => true

mutual
/-- `BestPracticesFinder` traversal of a statement (`visit_FunctionDef`,
`visit_ClassDef`, `visit_Import`, else `generic_visit`).  Expressions
contain no statements in this AST subset, so only statement recursion
can contribute findings. -/
def bpStmt : PStmt → List Finding
  | .functionDef fn args body ln =>
    let endLine := maxLineStmt (.functionDef fn args body ln)
    let funcLength := endLine - ln + 1
    (if 50 < funcLength then
      [{ type := "best_practice", line := ln,
         description := "Function '" ++ fn ++ "' is too long (" ++
           toString funcLength ++ " lines)",
         suggestion := "Consider breaking down the function into smaller, more focused functions",
         severity := "medium" }]
     else []) ++
    (if missingDocstring body then
      [{ type := "best_practice", line := ln,
         description := "Function '" ++ fn ++ "' lacks a docstring",
         suggestion := "Add a docstring to document the function's purpose, parameters, and return value",
         severity := "low" }]
     else []) ++
    (if 5 < args.length then
      [{ type := "best_practice", line := ln,
         description := "Function '" ++ fn ++ "' has too many parameters (" ++
           toString args.length ++ ")",
         suggestion := "Consider grouping related parameters into a class or using keyword arguments",
         severity := "medium" }]
     else []) ++
    bpStmts body
  | .classDef cn bases body ln =>
    (if missingDocstring body then
      [{ type := "best_practice", line := ln,
         description := "Class '" ++ cn ++ "' lacks a docstring",
         suggestion := "Add a docstring to document the class's purpose and usage",
         severity := "low" }]
     else []) ++
    (if 2 < bases.length then
      [{ type := "best_practice", line := ln,
         description := "Class '" ++ cn ++ "' has deep inheritance (" ++
           toString bases.length ++ " levels)",
         suggestion := "Consider composition over inheritance or simplify the class hierarchy",
         severity := "medium" }]
     else []) ++
    bpStmts body
  | .importStmt names ln =>
    if names.any (fun p => p.1 == "*") then
      [{ type := "best_practice", line := ln,
         description := "Wildcard import used",
         suggestion := "Explicitly import only the needed names",
         severity := "medium" }]
    else []
  | .forStmt _ _ body orelse _ => bpStmts body ++ bpStmts orelse
  | _ => []

def bpStmts : List PStmt → List Finding
  | [] => []
  | s :: ss => bpStmt s ++ bpStmts ss
end

/-- `BestPracticesAnalyzer.analyze`: empty on parse failure, else the
`BestPracticesFinder` traversal. -/
def bestAnalyze (parsed : Except ParseErr (List PStmt)) : List Finding :=
  match parsed with
  | .error _ => []
  | .ok body => bpStmts body

/-! ## Style (line-oriented) analyzer — `StyleAnalyzer` -/

/-- Python `str` whitespace for `strip`/`lstrip`/`rstrip` and `\s`
(space, tab, newline, carriage return, vertical tab, form feed). -/
def pyIsSpace (c : Char) : Bool :=
  c == ' ' || c == '\t' || c == '\n' || c == '\r' ||
    c.toNat == 11 || c.toNat == 12

/-- A regex `\w` character (ASCII model). -/
def isWordChar (c : Char) : Bool :=
  c.isAlphanum || c == '_'

/-- `line.rstrip()`. -/
def pyRstrip (cs : List Char) : List Char :=
  (cs.reverse.dropWhile pyIsSpace).reverse

/-- Truthiness of `line.strip()`: the line has a non-whitespace char. -/
def hasContent (cs : List Char) : Bool :=
  cs.any fun c => !(pyIsSpace c)

/-- Scanner equivalent of `re.findall(r'\b(\w+)\s*=', line)`: maximal
word-character runs that are followed by optional whitespace and `=`.
`run` is the current word run, reversed; a run always starts at a word
boundary because it opens right after a non-word character (or at the
start of the line). -/
def fvGo : List Char → List Char → List String
  | [], _ => []
  | c :: rest, run =>
    if isWordChar c then fvGo rest (c :: run)
    else
      match run with
      | [] => fvGo rest []
      | _ :: _ =>
        (match (c :: rest).dropWhile pyIsSpace with
         | '=' :: _ => [String.mk run.reverse]
         | _ => []) ++ fvGo rest []

/-- `re.findall(r'\b(\w+)\s*=', line)`, captures in scan order. -/
def findAssignLikeVars (cs : List Char) : List String :=
  fvGo cs []

/-- Full match of `re.match(r'[a-z_][a-z0-9_]*$', name)` (snake_case). -/
def isSnakeCase (s : String) : Bool :=
  match s.toList with
  | [] => false
  | c :: rest =>
    (c.isLower || c == '_') &&
      rest.all fun d => d.isLower || d.isDigit || d == '_'

/-- Full match of `re.match(r'[A-Z][a-zA-Z0-9]*$', name)` (PascalCase). -/
def isPascalCase (s : String) : Bool :=
  match s.toList with
  | [] => false
  | c :: rest => c.isUpper && rest.all fun d => d.isAlpha || d.isDigit

/-- The four per-line checks of `StyleAnalyzer.analyze`, in source
order, for line number `i` (1-based). -/
def styleLine (i : Nat) (cs : List Char) : List Finding :=
  (if 79 < (pyRstrip cs).length then
    [{ type := "style", line := i,
       description := "Line exceeds maximum length of 79 characters",
       suggestion := "Break the line into multiple lines or use line continuation",
       severity := "low" }]
   else []) ++
  (if ((cs.takeWhile pyIsSpace).length % 4 != 0) && hasContent cs then
    [{ type := "style", line := i,
       description := "Incorrect indentation. Use multiples of 4 spaces",
       suggestion := "Fix indentation to use 4 spaces per level",
       severity := "low" }]
   else []) ++
  (if (pyRstrip cs != cs) && hasContent cs then
    [{ type := "style", line := i,
       description := "Line contains trailing whitespace",
       suggestion := "Remove trailing whitespace",
       severity := "low" }]
   else []) ++
  ((findAssignLikeVars cs).filterMap fun v =>
    if !(isSnakeCase v) && !(isPascalCase v) then
      some { type := "style", line := i,
             description := "Variable name '" ++ v ++
               "' doesn't follow PEP 8 naming convention",
             suggestion := "Use lowercase with underscores for variable names",
             severity := "low" }
    else none)

/-- The `for i, line in enumerate(lines, start=1)` loop. -/
def styleLines (i : Nat) : List (List Char) → List Finding
  | [] => []
  | l :: ls => styleLine i l ++ styleLines (i + 1) ls

/-- `code.split('\n')`: split on every newline, keeping empty pieces
(`''.split('\n') == ['']`). -/
def splitLines : List Char → List (List Char)
  | [] => [[]]
  | c :: rest =>
    let r := splitLines rest
    if c == '\n' then [] :: r
    else (c :: r.headD []) :: r.tail

/-- `StyleAnalyzer.analyze`: split the code on newlines and run the
per-line checks with 1-based numbering. -/
def styleAnalyze (code : String) : List Finding :=
  styleLines 1 (splitLines code.toList)

/-! ## Aggregator — `CodeReviewAgent._analyze_file`

The agent hands each analyzer the same `content` string; the Style
analyzer splits it into lines and the three AST analyzers parse it.
A file's content is therefore modelled as the raw text together with
its `ast.parse` outcome (the parser is an external leaf dependency). -/

/-- A file's content: the raw text and its `ast.parse` outcome. -/
structure Content where
  text : String
  parsed : Except ParseErr (List PStmt)

/-- The `file_result` dictionary of `_analyze_file`. -/
structure FileResult where
  name : String
  issues : List Finding
  patch : String
deriving DecidableEq, Repr

/-- `_should_analyze_file`: extension allowlist
(`any(filename.endswith(ext) for ext in analyzable_extensions)`;
`endswith` is a character-suffix test). -/
def shouldAnalyzeFile (filename : String) : Bool :=
  [".py", ".js", ".jsx", ".ts", ".tsx",
   ".java", ".cpp", ".hpp", ".c", ".h",
   ".go", ".rs", ".rb", ".php"].any fun ext =>
    ext.toList.isSuffixOf filename.toList

/-- `issue["analyzer"] = analyzer_type`. -/
def tagFinding (nm : String) (f : Finding) : Finding :=
  { f with analyzer := nm }

/-- The `error`-category finding `_analyze_file` appends when an
analyzer raises (`line = 0`, no `analyzer` key). -/
def errorFinding (msg : String) : Finding :=
  { type := "error", line := 0,
    description := "Error analyzing file: " ++ msg,
    suggestion := "Please check file content and format",
    severity := "high" }

/-- `self.analyzers` in its dict insertion order (Python 3.7+ dicts
iterate in insertion order): style, bugs, performance, best_practices.
Each entry returns `Except`: `.error` models an exception escaping the
analyzer's `analyze` call.  In this embedding only the Performance
analyzer can raise (the `ast.Append` fault). -/
def fileAnalyzers (b : List String) :
    List (String × (Content → Except String (List Finding))) :=
  [("style", fun c => .ok (styleAnalyze c.text)),
   ("bugs", fun c => .ok (bugAnalyze b c.parsed)),
   ("performance", fun c => perfAnalyze c.parsed),
   ("best_practices", fun c => .ok (bestAnalyze c.parsed))]

/-- The `for analyzer_type, analyzer in self.analyzers.items()` loop
inside the `try`: tag and append each analyzer's findings; the first
exception aborts the loop (and the later sort), carrying the message. -/
def runAnalyzerLoop :
    List (String × (Content → Except String (List Finding))) → Content →
      List Finding → List Finding × Option String
  | [], _, acc => (acc, none)
  | (nm, f) :: rest, c, acc =>
    match f c with
    | .error e => (acc, some e)
    | .ok issues => runAnalyzerLoop rest c (acc ++ issues.map (tagFinding nm))

/-- Stable insertion of a finding into a line-sorted list: skip the
strictly smaller lines, land before every finding with an equal or
larger line. -/
def orderedInsertF (x : Finding) : List Finding → List Finding
  | [] => [x]
  | y :: l => if x.line ≤ y.line then x :: y :: l else y :: orderedInsertF x l

/-- `file_result["issues"].sort(key=lambda x: x["line"])`.  Python's
`list.sort` is specified as a stable sort by the key; stable sorts by
the same key agree extensionally, so it is modelled by stable insertion
sort (each element is inserted, in original order, before the equal-line
elements that followed it). -/
def sortFindings : List Finding → List Finding
  | [] => []
  | x :: l => orderedInsertF x (sortFindings l)

/-- `_analyze_file`: skip non-analyzable extensions; otherwise run the
four analyzers in order.  If none raises, sort the tagged findings by
line; if one raises, keep the findings accumulated so far (unsorted),
append exactly one `error` finding, and skip the remaining analyzers. -/
def analyzeFile (b : List String) (filename : String) (c : Content)
    (patch : String) : FileResult :=
  if !(shouldAnalyzeFile filename) then ⟨filename, [], patch⟩
  else
    match runAnalyzerLoop (fileAnalyzers b) c [] with
    | (acc, none) => ⟨filename, sortFindings acc, patch⟩
    | (acc, some e) => ⟨filename, acc ++ [errorFinding e], patch⟩

/-! ## Summary reducer — `analyze_pr` / `_update_summary_stats` -/

/-- `d.get(k, dflt)` on the `issues_by_type` dict. -/
def dictGet (d : List (String × Nat)) (k : String) (dflt : Nat) : Nat :=
  match d with
  | [] => dflt
  | (k', v) :: rest => if k' == k then v else dictGet rest k dflt

/-- `d[k] = v`: overwrite the existing key or append a new one
(insertion-ordered dict). -/
def dictSet (d : List (String × Nat)) (k : String) (v : Nat) :
    List (String × Nat) :=
  match d with
  | [] => [(k, v)]
  | (k', v') :: rest =>
    if k' == k then (k, v) :: rest else (k', v') :: dictSet rest k v

/-- The `results["summary"]` dictionary. -/
structure Summary where
  total_files : Nat
  total_issues : Nat
  critical_issues : Nat
  issues_by_type : List (String × Nat)
deriving DecidableEq, Repr

/-- The summary as initialized in `analyze_pr` (`total_files` is set to
`len(pr_files)` up front). -/
def initSummary (nfiles : Nat) : Summary :=
  { total_files := nfiles, total_issues := 0, critical_issues := 0,
    issues_by_type :=
      [("style", 0), ("bug", 0), ("performance", 0), ("best_practice", 0)] }

/-- The per-issue body of `_update_summary_stats`' loop: bump the
issue's category count (defaulting an unseen category to 0) and, for
severity `high` or `critical`, the critical count.  (Every finding this
code produces carries a `type` key, so `issue.get("type", "other")` is
the field itself.) -/
def updateSummaryIssue (s : Summary) (issue : Finding) : Summary :=
  let s1 := { s with issues_by_type :=
    (dictSet s.issues_by_type issue.type
      (dictGet s.issues_by_type issue.type 0 + 1)) }
  if issue.severity == "high" || issue.severity == "critical" then
    { s1 with critical_issues := s1.critical_issues + 1 }
  else s1

/-- `_update_summary_stats`: add the file's issue count, then fold the
per-issue updates. -/
def updateSummaryStats (s : Summary) (issues : List Finding) : Summary :=
  issues.foldl updateSummaryIssue
    { s with total_issues := s.total_issues + issues.length }

/-- One entry of the `pr_files` listing: filename, change status, patch
(`file_info.get("patch", "")`), and the content fetched from the head
commit (`none` models `get_file_content` returning a falsy value). -/
structure PRFile where
  filename : String
  status : String
  patch : String
  content : Option Content

/-- The parts of `analyze_pr`'s result the core computes: the
per-file results and the summary (PR metadata is opaque I/O glue). -/
structure PRResults where
  files : List FileResult
  summary : Summary

/-- The `for file_info in pr_files` loop of `analyze_pr`: skip removed
files and files without content; append each analysis and update the
summary in place. -/
def analyzePRGo (b : List String) :
    List PRFile → List FileResult → Summary → List FileResult × Summary
  | [], fs, s => (fs, s)
  | f :: rest, fs, s =>
    if f.status == "removed" then analyzePRGo b rest fs s
    else
      match f.content with
      | none => analyzePRGo b rest fs s
      | some c =>
        let fr := analyzeFile b f.filename c f.patch
        analyzePRGo b rest (fs ++ [fr]) (updateSummaryStats s fr.issues)

/-- `analyze_pr` (its pure aggregation part): `total_files` is
`len(pr_files)` from the start; then the per-file loop. -/
def analyzePR (b : List String) (prFiles : List PRFile) : PRResults :=
  let r := analyzePRGo b prFiles [] (initSummary prFiles.length)
  ⟨r.1, r.2⟩

/-! ## Inputs used by the concrete (counter)examples -/

/-- The analyzer-invocation rank: the dict insertion order style, bugs,
performance, best_practices of `_initialize_analyzers` (the untagged
`error` finding ranks last). -/
def analyzerRank (nm : String) : Nat :=
  if nm == "style" then 0
  else if nm == "bugs" then 1
  else if nm == "performance" then 2
  else if nm == "best_practices" then 3
  else 4

/-- A small stand-in for `dir(__builtins__)` in concrete examples. -/
def sampleBuiltins : List String := ["print", "len", "range"]

/-- `for i in range(3):\n    xs.append(99)` — a loop whose body is one
append statement (the parse of `c4Content.text`). -/
def c4LoopMod : List PStmt :=
  [.forStmt (.name "i" .store 1)
    (.call (.name "range" .load 1) [.numConst 1] 1)
    [.exprStmt (.call (.attr (.name "xs" .load 2) "append" .load 2)
      [.numConst 2] 2) 2] [] 1]

/-- Content whose Performance pass faults mid-aggregation. -/
def c4Content : Content :=
  { text := "for i in range(3):\n    xs.append(99)", parsed := .ok c4LoopMod }

/-- `def f():\n    return 1\nfor i in range(3):\n    g()` — a
docstring-less function (a Best-Practices finding) followed by a loop
that makes the Performance pass fault. -/
def c1Content : Content :=
  { text := "def f():\n    return 1\nfor i in range(3):\n    g()",
    parsed := .ok
      [.functionDef "f" [] [.returnStmt (some (.numConst 2)) 2] 1,
       .forStmt (.name "i" .store 3)
         (.call (.name "range" .load 3) [.numConst 3] 3)
         [.exprStmt (.call (.name "g" .load 4) [] 4) 4] [] 3] }

/-- `for i in xs:\n    ys.append(i)` — the exact shape the
Performance analyzer's comprehension check is meant to flag. -/
def c5AppendLoop : List PStmt :=
  [.forStmt (.name "i" .store 1) (.name "xs" .load 1)
    [.exprStmt (.call (.attr (.name "ys" .load 2) "append" .load 2)
      [.name "i" .load 2] 2) 2] [] 1]

/-- Two findings, one of severity high (first file of the §8 reduce
example). -/
def c6IssuesA : List Finding :=
  [{ type := "bug", line := 1, description := "a", suggestion := "a",
     severity := "high" },
   { type := "style", line := 2, description := "b", suggestion := "b",
     severity := "low" }]

/-- Three findings, none of severity high/critical (second file of the
§8 reduce example). -/
def c6IssuesB : List Finding :=
  [{ type := "style", line := 1, description := "c", suggestion := "c",
     severity := "low" },
   { type := "performance", line := 2, description := "d", suggestion := "d",
     severity := "medium" },
   { type := "best_practice", line := 3, description := "e", suggestion := "e",
     severity := "low" }]

/-- A removed PR file: listed in `pr_files` but skipped by the loop. -/
def c6RemovedFile : PRFile := ⟨"gone.py", "removed", "", none⟩

/-- The sortedness-with-stable-ties order: lines ascend, and equal-line
findings keep the analyzer-invocation order. -/
def findingOrder (u v : Finding) : Prop :=
  u.line ≤ v.line ∧
    (u.line = v.line → analyzerRank u.analyzer ≤ analyzerRank v.analyzer)

/-- The tie half of `findingOrder` (what the pre-sort concatenation
already satisfies). -/
def tieOrder (u v : Finding) : Prop :=
  u.line = v.line → analyzerRank u.analyzer ≤ analyzerRank v.analyzer

/-- Content used by the C4 witness: `x = 1`, on which no analyzer
faults. -/
def c4CleanContent : Content :=
  { text := "x = 1",
    parsed := .ok [.assign [.name "x" .store 1] (.numConst 1) 1] }

/-- Does a finding carry the undefined-variable description naming
`x`?  (The description embeds the identifier, so it identifies which
name a bug finding is about.) -/
def isUndefFor (x : String) (fd : Finding) : Bool :=
  fd.description == "Potential use of undefined variable '" ++ x ++ "'"

mutual
/-- The source lines of the load-position occurrences of `x` in an
expression, in the `BugFinder` traversal order. -/
def loadsExpr (x : String) : PExpr → List Nat
  | .name id ctx ln =>
    match ctx with
    | .load => if id == x then [ln] else []
    | _ => []
  | .attr v _ _ _ => loadsExpr x v
  | .call f args _ => loadsExpr x f ++ loadsExprs x args
  | .listComp elt gens _ => loadsExpr x elt ++ loadsComps x gens
  | .numConst _ => []
  | .strConst _ _ => []

def loadsExprs (x : String) : List PExpr → List Nat
  | [] => []
  | e :: es => loadsExpr x e ++ loadsExprs x es

def loadsComps (x : String) : List PComp → List Nat
  | [] => []
  | .mk t it ifs :: cs =>
    loadsExpr x t ++ loadsExpr x it ++ loadsExprs x ifs ++ loadsComps x cs

/-- The source lines of the load-position occurrences of `x` in a
statement, in the `BugFinder` traversal order. -/
def loadsStmt (x : String) : PStmt → List Nat
  | .functionDef _ _ body _ => loadsStmts x body
  | .classDef _ bases body _ => loadsExprs x bases ++ loadsStmts x body
  | .assign ts v _ => loadsExprs x ts ++ loadsExpr x v
  | .exprStmt e _ => loadsExpr x e
  | .forStmt t it body orelse _ =>
    loadsExpr x t ++ loadsExpr x it ++ loadsStmts x body ++ loadsStmts x orelse
  | .importStmt _ _ => []
  | .importFrom _ _ _ => []
  | .delStmt ts _ => loadsExprs x ts
  | .returnStmt v _ =>
    match v with
    | none => []
    | some e => loadsExpr x e
  | .passStmt _ => []

def loadsStmts (x : String) : List PStmt → List Nat
  | [] => []
  | s :: ss => loadsStmt x s ++ loadsStmts x ss
end

mutual
/-- `x` is never in a binding position in an expression: no
store-context name `x` (attribute/call/comprehension parts recursed). -/
def noStoreExpr (x : String) : PExpr → Bool
  | .name id ctx _ => !(id == x && ctx == .store)
  | .attr v _ _ _ => noStoreExpr x v
  | .call f args _ => noStoreExpr x f && noStoreExprs x args
  | .listComp elt gens _ => noStoreExpr x elt && noStoreComps x gens
  | .numConst _ => true
  | .strConst _ _ => true

def noStoreExprs (x : String) : List PExpr → Bool
  | [] => true
  | e :: es => noStoreExpr x e && noStoreExprs x es

def noStoreComps (x : String) : List PComp → Bool
  | [] => true
  | .mk t it ifs :: cs =>
    noStoreExpr x t && noStoreExpr x it && noStoreExprs x ifs &&
      noStoreComps x cs

/-- `x` is never in a binding position in a statement: not a
function/class name or parameter, not an import binding, and never a
store-context name. -/
def noStoreStmt (x : String) : PStmt → Bool
  | .functionDef fn args body _ =>
    !(fn == x) && !(args.contains x) && noStoreStmts x body
  | .classDef cn bases body _ =>
    !(cn == x) && noStoreExprs x bases && noStoreStmts x body
  | .assign ts v _ => noStoreExprs x ts && noStoreExpr x v
  | .exprStmt e _ => noStoreExpr x e
  | .forStmt t it body orelse _ =>
    noStoreExpr x t && noStoreExpr x it && noStoreStmts x body &&
      noStoreStmts x orelse
  | .importStmt names _ => names.all fun p => !((p.2.getD p.1) == x)
  | .importFrom _ names _ => names.all fun p => !((p.2.getD p.1) == x)
  | .delStmt ts _ => noStoreExprs x ts
  | .returnStmt v _ =>
    match v with
    | none => true
    | some e => noStoreExpr x e
  | .passStmt _ => true

def noStoreStmts (x : String) : List PStmt → Bool
  | [] => true
  | s :: ss => noStoreStmt x s && noStoreStmts x ss
end

/-- `x` is absent from every scope on the stack and from the
declared-symbols registry. -/
def xAbsent (x : String) (st : BFState) : Prop :=
  (∀ s ∈ st.scopeStack, x ∉ s) ∧ x ∉ st.definedFunctions

/-! ## Claim theorems -/

/-- The undefined-variable description names `x` exactly when it was
produced for `x` (string concatenation is cancellative). -/
theorem isUndefFor_undefinedFinding (x y : String) (ln : Nat) :
    isUndefFor x (undefinedFinding y ln) = (y == x) := by
  unfold isUndefFor undefinedFinding
  by_cases h : y = x
  · subst h; simp
  · have hyx : (y == x) = false := by simp [h]
    rw [hyx, Bool.eq_false_iff]
    simp only [ne_eq, beq_iff_eq]
    intro hEq
    apply h
    have hd := congrArg String.data hEq
    simp only [String.data_append] at hd
    have h1 := List.append_cancel_right hd
    have h2 := List.append_cancel_left h1
    cases y; cases x
    exact congrArg String.mk h2

/-- `is_defined` rejects a name that is in no allowlist, no scope, and
not in the declared-symbols registry. -/
theorem isDefined_false (b : List String) (x : String) (st : BFState)
    (hb : x ∉ b) (hc : x ∉ commonModules) (hst : xAbsent x st) :
    isDefined b st x = false := by
  unfold isDefined
  simp only [Bool.or_eq_false_iff]
  refine ⟨⟨⟨by simpa using hb, by simpa using hc⟩, by simpa using hst.2⟩, ?_⟩
  rw [List.any_eq_false]
  intro s hs
  simpa using hst.1 s hs

/-- Adding to the current scope changes no other state component. -/
theorem addToCurrentScope_issues (st : BFState) (n : String) :
    (addToCurrentScope st n).issues = st.issues := by
  unfold addToCurrentScope
  split <;> rfl

/-- Adding to the current scope keeps the registry. -/
theorem addToCurrentScope_defs (st : BFState) (n : String) :
    (addToCurrentScope st n).definedFunctions = st.definedFunctions := by
  unfold addToCurrentScope
  split <;> rfl

/-- Binding a different name keeps `x` absent. -/
theorem xAbsent_addToCurrentScope (x : String) (st : BFState) (n : String)
    (h : xAbsent x st) (hn : n ≠ x) : xAbsent x (addToCurrentScope st n) := by
  unfold addToCurrentScope
  split
  · exact h
  · next s rest heq =>
    refine ⟨?_, h.2⟩
    intro s' hs'
    rcases List.mem_cons.mp hs' with rfl | hs'
    · intro hx
      rcases List.mem_cons.mp hx with rfl | hx
      · exact hn rfl
      · exact h.1 s (by rw [heq]; exact List.mem_cons_self ..) hx
    · exact h.1 s' (by rw [heq]; exact List.mem_cons_of_mem _ hs')

/-- Folding scope additions changes no other state component. -/
theorem foldl_add_issues (names : List String) : ∀ st : BFState,
    ((names.foldl addToCurrentScope st).issues = st.issues ∧
      (names.foldl addToCurrentScope st).definedFunctions =
        st.definedFunctions) := by
  induction names with
  | nil => intro st; exact ⟨rfl, rfl⟩
  | cons n ns ih =>
    intro st
    rw [List.foldl_cons]
    obtain ⟨h1, h2⟩ := ih (addToCurrentScope st n)
    exact ⟨h1.trans (addToCurrentScope_issues st n),
      h2.trans (addToCurrentScope_defs st n)⟩

/-- Folding additions of names other than `x` keeps `x` absent. -/
theorem xAbsent_foldl_add (x : String) (names : List String)
    (hn : ∀ n ∈ names, n ≠ x) : ∀ st : BFState, xAbsent x st →
      xAbsent x (names.foldl addToCurrentScope st) := by
  induction names with
  | nil => intro st h; exact h
  | cons n ns ih =>
    intro st h
    rw [List.foldl_cons]
    exact ih (fun n' hn' => hn n' (by simp [hn']))
      _ (xAbsent_addToCurrentScope x st n h (hn n (by simp)))

/-- Entering a scope keeps `x` absent. -/
theorem xAbsent_enterScope (x : String) (st : BFState) (h : xAbsent x st) :
    xAbsent x (enterScope st) := by
  refine ⟨?_, h.2⟩
  intro s hs
  rcases List.mem_cons.mp hs with rfl | hs
  · simp
  · exact h.1 s hs

/-- Leaving a scope keeps `x` absent. -/
theorem xAbsent_exitScope (x : String) (st : BFState) (h : xAbsent x st) :
    xAbsent x (exitScope st) := by
  refine ⟨?_, h.2⟩
  intro s hs
  exact h.1 s (List.mem_of_mem_tail hs)

mutual
/-- Traversal invariant for an identifier `x` that is in no allowlist
and never in binding position: visiting an expression keeps `x` absent
from all scopes and appends exactly the undefined-variable findings for
the load occurrences of `x`, one per occurrence, at their lines, in
traversal order. -/
theorem bfLoadsExpr (b : List String) (x : String) (hb : x ∉ b)
    (hc : x ∉ commonModules) (e : PExpr) (st : BFState)
    (hst : xAbsent x st) (hfree : noStoreExpr x e = true) :
    (bfExpr b st e).issues.filter (isUndefFor x) =
      st.issues.filter (isUndefFor x) ++
        (loadsExpr x e).map (undefinedFinding x) ∧
    xAbsent x (bfExpr b st e) := by
  cases e with
  | name id ctx ln =>
    cases ctx with
    | load =>
      by_cases hid : id = x
      · subst hid
        have hdef := isDefined_false b id st hb hc hst
        rw [show bfExpr b st (.name id .load ln) =
          { st with issues := st.issues ++ [undefinedFinding id ln] } by
            simp [bfExpr, hdef]]
        refine ⟨?_, hst.1, hst.2⟩
        simp [loadsExpr, List.filter_append, isUndefFor_undefinedFinding]
      · by_cases hdef : isDefined b st id = true
        · rw [show bfExpr b st (.name id .load ln) = st by simp [bfExpr, hdef]]
          simp [loadsExpr, hid, hst]
        · rw [show bfExpr b st (.name id .load ln) =
            { st with issues := st.issues ++ [undefinedFinding id ln] } by
              simp [bfExpr]
              intro h
              exact absurd h hdef]
          refine ⟨?_, hst.1, hst.2⟩
          simp [loadsExpr, hid, List.filter_append, isUndefFor_undefinedFinding]
    | store =>
      have hid : id ≠ x := by
        simp only [noStoreExpr, Bool.not_eq_eq_eq_not, Bool.not_true,
          Bool.and_eq_false_iff] at hfree
        rcases hfree with h | h
        · simpa [beq_iff_eq] using h
        · simp at h
      rw [show bfExpr b st (.name id .store ln) = addToCurrentScope st id by
        simp [bfExpr]]
      refine ⟨?_, xAbsent_addToCurrentScope x st id hst hid⟩
      rw [addToCurrentScope_issues]
      simp [loadsExpr]
    | del =>
      rw [show bfExpr b st (.name id .del ln) = st by simp [bfExpr]]
      simp [loadsExpr, hst]
  | attr v a c ln =>
    rw [show bfExpr b st (.attr v a c ln) = bfExpr b st v by simp [bfExpr]]
    have h := bfLoadsExpr b x hb hc v st hst (by simpa [noStoreExpr] using hfree)
    simpa [loadsExpr] using h
  | call f args ln =>
    rw [show bfExpr b st (.call f args ln) = bfExprs b (bfExpr b st f) args by
      simp [bfExpr]]
    simp only [noStoreExpr, Bool.and_eq_true] at hfree
    obtain ⟨h1, h2⟩ := bfLoadsExpr b x hb hc f st hst hfree.1
    obtain ⟨g1, g2⟩ := bfLoadsExprs b x hb hc args (bfExpr b st f) h2 hfree.2
    refine ⟨?_, g2⟩
    rw [g1, h1, loadsExpr]
    simp [List.map_append, List.append_assoc]
  | listComp elt gens ln =>
    rw [show bfExpr b st (.listComp elt gens ln) =
      bfComps b (bfExpr b st elt) gens by simp [bfExpr]]
    simp only [noStoreExpr, Bool.and_eq_true] at hfree
    obtain ⟨h1, h2⟩ := bfLoadsExpr b x hb hc elt st hst hfree.1
    obtain ⟨g1, g2⟩ := bfLoadsComps b x hb hc gens (bfExpr b st elt) h2 hfree.2
    refine ⟨?_, g2⟩
    rw [g1, h1, loadsExpr]
    simp [List.map_append, List.append_assoc]
  | numConst ln =>
    rw [show bfExpr b st (.numConst ln) = st by simp [bfExpr]]
    simp [loadsExpr, hst]
  | strConst s ln =>
    rw [show bfExpr b st (.strConst s ln) = st by simp [bfExpr]]
    simp [loadsExpr, hst]

/-- Traversal invariant, list-of-expressions version. -/
theorem bfLoadsExprs (b : List String) (x : String) (hb : x ∉ b)
    (hc : x ∉ commonModules) (es : List PExpr) (st : BFState)
    (hst : xAbsent x st) (hfree : noStoreExprs x es = true) :
    (bfExprs b st es).issues.filter (isUndefFor x) =
      st.issues.filter (isUndefFor x) ++
        (loadsExprs x es).map (undefinedFinding x) ∧
    xAbsent x (bfExprs b st es) := by
  cases es with
  | nil =>
    rw [show bfExprs b st [] = st by simp [bfExprs]]
    simp [loadsExprs, hst]
  | cons e es =>
    rw [show bfExprs b st (e :: es) = bfExprs b (bfExpr b st e) es by
      simp [bfExprs]]
    simp only [noStoreExprs, Bool.and_eq_true] at hfree
    obtain ⟨h1, h2⟩ := bfLoadsExpr b x hb hc e st hst hfree.1
    obtain ⟨g1, g2⟩ := bfLoadsExprs b x hb hc es (bfExpr b st e) h2 hfree.2
    refine ⟨?_, g2⟩
    rw [g1, h1, loadsExprs]
    simp [List.map_append, List.append_assoc]

/-- Traversal invariant, comprehension-clauses version. -/
theorem bfLoadsComps (b : List String) (x : String) (hb : x ∉ b)
    (hc : x ∉ commonModules) (cs : List PComp) (st : BFState)
    (hst : xAbsent x st) (hfree : noStoreComps x cs = true) :
    (bfComps b st cs).issues.filter (isUndefFor x) =
      st.issues.filter (isUndefFor x) ++
        (loadsComps x cs).map (undefinedFinding x) ∧
    xAbsent x (bfComps b st cs) := by
  cases cs with
  | nil =>
    rw [show bfComps b st [] = st by simp [bfComps]]
    simp [loadsComps, hst]
  | cons c cs =>
    obtain ⟨t, it, ifs⟩ := c
    rw [show bfComps b st (.mk t it ifs :: cs) =
      bfComps b (bfExprs b (bfExpr b (bfExpr b st t) it) ifs) cs by
        simp [bfComps]]
    simp only [noStoreComps, Bool.and_eq_true] at hfree
    obtain ⟨⟨⟨f1, f2⟩, f3⟩, f4⟩ := hfree
    obtain ⟨h1, h2⟩ := bfLoadsExpr b x hb hc t st hst f1
    obtain ⟨i1, i2⟩ := bfLoadsExpr b x hb hc it _ h2 f2
    obtain ⟨j1, j2⟩ := bfLoadsExprs b x hb hc ifs _ i2 f3
    obtain ⟨g1, g2⟩ := bfLoadsComps b x hb hc cs _ j2 f4
    refine ⟨?_, g2⟩
    rw [g1, j1, i1, h1, loadsComps]
    simp [List.map_append, List.append_assoc]

/-- Traversal invariant, statement version. -/
theorem bfLoadsStmt (b : List String) (x : String) (hb : x ∉ b)
    (hc : x ∉ commonModules) (s : PStmt) (st : BFState)
    (hst : xAbsent x st) (hfree : noStoreStmt x s = true) :
    (bfStmt b st s).issues.filter (isUndefFor x) =
      st.issues.filter (isUndefFor x) ++
        (loadsStmt x s).map (undefinedFinding x) ∧
    xAbsent x (bfStmt b st s) := by
  cases s with
  | functionDef fn args body ln =>
    simp only [noStoreStmt, Bool.and_eq_true] at hfree
    obtain ⟨⟨hfn, hargs⟩, hbody⟩ := hfree
    have hfn' : fn ≠ x := by simpa [beq_iff_eq] using hfn
    have hargs' : ∀ n ∈ args, n ≠ x := by
      have hx : x ∉ args := by simpa using hargs
      intro n hn hEq
      subst hEq
      exact hx hn
    rw [show bfStmt b st (.functionDef fn args body ln) =
      exitScope (bfStmts b
        (args.foldl addToCurrentScope
          (enterScope { st with
            definedFunctions := st.definedFunctions ++ [fn] })) body) by
      simp [bfStmt]]
    have hst1 : xAbsent x
        { st with definedFunctions := st.definedFunctions ++ [fn] } := by
      refine ⟨hst.1, ?_⟩
      simp [hst.2, Ne.symm hfn']
    have hst2 := xAbsent_foldl_add x args hargs' _ (xAbsent_enterScope x _ hst1)
    obtain ⟨g1, g2⟩ := bfLoadsStmts b x hb hc body _ hst2 hbody
    refine ⟨?_, xAbsent_exitScope x _ g2⟩
    show (bfStmts b _ body).issues.filter (isUndefFor x) = _
    rw [g1, (foldl_add_issues args _).1]
    simp [enterScope, loadsStmt]
  | classDef cn bases body ln =>
    simp only [noStoreStmt, Bool.and_eq_true] at hfree
    obtain ⟨⟨hcn, hbases⟩, hbody⟩ := hfree
    have hcn' : cn ≠ x := by simpa [beq_iff_eq] using hcn
    rw [show bfStmt b st (.classDef cn bases body ln) =
      exitScope (bfStmts b
        (bfExprs b (enterScope { st with
          definedFunctions := st.definedFunctions ++ [cn] }) bases) body) by
      simp [bfStmt]]
    have hst1 : xAbsent x
        { st with definedFunctions := st.definedFunctions ++ [cn] } := by
      refine ⟨hst.1, ?_⟩
      simp [hst.2, Ne.symm hcn']
    obtain ⟨h1, h2⟩ := bfLoadsExprs b x hb hc bases _
      (xAbsent_enterScope x _ hst1) hbases
    obtain ⟨g1, g2⟩ := bfLoadsStmts b x hb hc body _ h2 hbody
    refine ⟨?_, xAbsent_exitScope x _ g2⟩
    show (bfStmts b _ body).issues.filter (isUndefFor x) = _
    rw [g1, h1, loadsStmt]
    simp [enterScope, List.map_append, List.append_assoc]
  | assign ts v ln =>
    simp only [noStoreStmt, Bool.and_eq_true] at hfree
    rw [show bfStmt b st (.assign ts v ln) = bfExpr b (bfExprs b st ts) v by
      simp [bfStmt]]
    obtain ⟨h1, h2⟩ := bfLoadsExprs b x hb hc ts st hst hfree.1
    obtain ⟨g1, g2⟩ := bfLoadsExpr b x hb hc v _ h2 hfree.2
    refine ⟨?_, g2⟩
    rw [g1, h1, loadsStmt]
    simp [List.map_append, List.append_assoc]
  | exprStmt e ln =>
    rw [show bfStmt b st (.exprStmt e ln) = bfExpr b st e by simp [bfStmt]]
    have h := bfLoadsExpr b x hb hc e st hst
      (by simpa [noStoreStmt] using hfree)
    simpa [loadsStmt] using h
  | forStmt t it body orelse ln =>
    simp only [noStoreStmt, Bool.and_eq_true] at hfree
    obtain ⟨⟨⟨f1, f2⟩, f3⟩, f4⟩ := hfree
    rw [show bfStmt b st (.forStmt t it body orelse ln) =
      bfStmts b (bfStmts b (bfExpr b (bfExpr b st t) it) body) orelse by
        simp [bfStmt]]
    obtain ⟨h1, h2⟩ := bfLoadsExpr b x hb hc t st hst f1
    obtain ⟨i1, i2⟩ := bfLoadsExpr b x hb hc it _ h2 f2
    obtain ⟨j1, j2⟩ := bfLoadsStmts b x hb hc body _ i2 f3
    obtain ⟨g1, g2⟩ := bfLoadsStmts b x hb hc orelse _ j2 f4
    refine ⟨?_, g2⟩
    rw [g1, j1, i1, h1, loadsStmt]
    simp [List.map_append, List.append_assoc]
  | importStmt names ln =>
    rw [show bfStmt b st (.importStmt names ln) =
      names.foldl (fun s p => addToCurrentScope s (p.2.getD p.1)) st by
        simp [bfStmt]]
    rw [show names.foldl (fun s p => addToCurrentScope s (p.2.getD p.1)) st =
      (names.map (fun p => p.2.getD p.1)).foldl addToCurrentScope st by
        rw [List.foldl_map]]
    have hn : ∀ n ∈ names.map (fun p => p.2.getD p.1), n ≠ x := by
      intro n hn hEq
      subst hEq
      rcases List.mem_map.mp hn with ⟨p, hp, hpn⟩
      simp only [noStoreStmt, List.all_eq_true] at hfree
      have := hfree p hp
      rw [hpn] at this
      simp at this
    refine ⟨?_, xAbsent_foldl_add x _ hn st hst⟩
    rw [(foldl_add_issues _ st).1]
    simp [loadsStmt]
  | importFrom m names ln =>
    rw [show bfStmt b st (.importFrom m names ln) =
      names.foldl (fun s p => addToCurrentScope s (p.2.getD p.1)) st by
        simp [bfStmt]]
    rw [show names.foldl (fun s p => addToCurrentScope s (p.2.getD p.1)) st =
      (names.map (fun p => p.2.getD p.1)).foldl addToCurrentScope st by
        rw [List.foldl_map]]
    have hn : ∀ n ∈ names.map (fun p => p.2.getD p.1), n ≠ x := by
      intro n hn hEq
      subst hEq
      rcases List.mem_map.mp hn with ⟨p, hp, hpn⟩
      simp only [noStoreStmt, List.all_eq_true] at hfree
      have := hfree p hp
      rw [hpn] at this
      simp at this
    refine ⟨?_, xAbsent_foldl_add x _ hn st hst⟩
    rw [(foldl_add_issues _ st).1]
    simp [loadsStmt]
  | delStmt ts ln =>
    rw [show bfStmt b st (.delStmt ts ln) = bfExprs b st ts by simp [bfStmt]]
    have h := bfLoadsExprs b x hb hc ts st hst
      (by simpa [noStoreStmt] using hfree)
    simpa [loadsStmt] using h
  | returnStmt v ln =>
    cases v with
    | none =>
      rw [show bfStmt b st (.returnStmt none ln) = st by simp [bfStmt]]
      simp [loadsStmt, hst]
    | some e =>
      rw [show bfStmt b st (.returnStmt (some e) ln) = bfExpr b st e by
        simp [bfStmt]]
      have h := bfLoadsExpr b x hb hc e st hst
        (by simpa [noStoreStmt] using hfree)
      simpa [loadsStmt] using h
  | passStmt ln =>
    rw [show bfStmt b st (.passStmt ln) = st by simp [bfStmt]]
    simp [loadsStmt, hst]

/-- Traversal invariant, statement-list version. -/
theorem bfLoadsStmts (b : List String) (x : String) (hb : x ∉ b)
    (hc : x ∉ commonModules) (ss : List PStmt) (st : BFState)
    (hst : xAbsent x st) (hfree : noStoreStmts x ss = true) :
    (bfStmts b st ss).issues.filter (isUndefFor x) =
      st.issues.filter (isUndefFor x) ++
        (loadsStmts x ss).map (undefinedFinding x) ∧
    xAbsent x (bfStmts b st ss) := by
  cases ss with
  | nil =>
    rw [show bfStmts b st [] = st by simp [bfStmts]]
    simp [loadsStmts, hst]
  | cons s ss =>
    rw [show bfStmts b st (s :: ss) = bfStmts b (bfStmt b st s) ss by
      simp [bfStmts]]
    simp only [noStoreStmts, Bool.and_eq_true] at hfree
    obtain ⟨h1, h2⟩ := bfLoadsStmt b x hb hc s st hst hfree.1
    obtain ⟨g1, g2⟩ := bfLoadsStmts b x hb hc ss (bfStmt b st s) h2 hfree.2
    refine ⟨?_, g2⟩
    rw [g1, h1, loadsStmts]
    simp [List.map_append, List.append_assoc]
end

/-- C2: for every input text that fails to parse, the Bug analyzer
returns exactly one finding with category=bug, severity=critical, line
equal to the parser's failure line (defaulting to 1 when the line is
unknown), and a description embedding the parser's message, while the
Performance and Best-Practices analyzers each return the empty list. -/
theorem c2_parse_failure (b : List String) (e : ParseErr) :
    bugAnalyze b (.error e) =
      [{ type := "bug", line := pyOrOne e.lineno,
         description := "Syntax error: " ++ e.msg,
         suggestion := "Fix the syntax error to ensure code can be executed",
         severity := "critical" }] ∧
    (e.lineno = none → pyOrOne e.lineno = 1) ∧
    (∀ n, e.lineno = some n → 0 < n → pyOrOne e.lineno = n) ∧
    perfAnalyze (.error e) = .ok [] ∧
    bestAnalyze (.error e) = [] := by
  refine ⟨rfl, fun h => by simp [pyOrOne, h], fun n h hn => ?_, rfl, rfl⟩
  simp [pyOrOne, h]
  omega

/-- C2 witness: the parse-failure contract at a concrete syntax error. -/
theorem c2_parse_failure_witness :
    bugAnalyze ["print"] (.error ⟨some 3, "unmatched ')' (file.py, line 3)"⟩) =
      [{ type := "bug", line := 3,
         description := "Syntax error: unmatched ')' (file.py, line 3)",
         suggestion := "Fix the syntax error to ensure code can be executed",
         severity := "critical" }] ∧
    perfAnalyze (.error ⟨some 3, "unmatched ')' (file.py, line 3)"⟩) = .ok [] ∧
    bestAnalyze (.error ⟨some 3, "unmatched ')' (file.py, line 3)"⟩) = [] := by
  obtain ⟨h1, _, h3, h4, h5⟩ :=
    c2_parse_failure ["print"] ⟨some 3, "unmatched ')' (file.py, line 3)"⟩
  exact ⟨by rw [h1, h3 3 rfl (by decide)]; rfl, h4, h5⟩

/-- C5 (code bug): on `for i in xs: ys.append(i)` — a loop whose entire
body is the single append statement the check is meant to flag — the
Performance analyzer does not emit a performance/low finding at the
loop's line: its `visit_For` evaluates `ast.Append`, an attribute the
`ast` module does not define, so it raises `AttributeError` for every
loop whose body is a single statement. -/
theorem c5_append_loop_faults :
    perfAnalyze (.ok c5AppendLoop) = .error astAppendError := by
  rfl

/-- C3: for every syntactically valid input in which the identifier `x`
is never bound, never imported, and not a defined function/class name,
and `x` is in neither allowlist, the Bug analyzer's findings naming `x`
are exactly one bug/high finding per load-position read of `x`, at the
read's line, in traversal order; in particular a module with a single
read of `x` yields exactly that one finding, and the same read after an
assignment to `x` on a prior line yields no finding. -/
theorem c3_undefined_read (b : List String) (x : String) (m : List PStmt)
    (ln1 ln2 : Nat) (hb : x ∉ b) (hc : x ∉ commonModules)
    (hm : noStoreStmts x m = true) :
    (bugAnalyze b (.ok m)).filter (isUndefFor x) =
      (loadsStmts x m).map (undefinedFinding x) ∧
    bugAnalyze b (.ok [.exprStmt (.name x .load ln2) ln2]) =
      [undefinedFinding x ln2] ∧
    bugAnalyze b
      (.ok [.assign [.name x .store ln1] (.numConst ln1) ln1,
            .exprStmt (.name x .load ln2) ln2]) = [] := by
  refine ⟨?_, ?_, ?_⟩
  · have hst0 : xAbsent x (enterScope initBF) := by
      constructor
      · intro s hs
        simp only [enterScope, initBF] at hs
        rcases List.mem_cons.mp hs with rfl | hs
        · simp
        · simp at hs
          simp [hs]
      · simp [enterScope, initBF]
    obtain ⟨h1, _⟩ := bfLoadsStmts b x hb hc m (enterScope initBF) hst0 hm
    rw [bugAnalyze]
    simpa [exitScope, enterScope, initBF] using h1
  · simp [bugAnalyze, bfStmts, bfStmt, bfExpr, bfExprs, isDefined,
      enterScope, exitScope, initBF, hb, hc]
  · simp [bugAnalyze, bfStmts, bfStmt, bfExpr, bfExprs, isDefined,
      addToCurrentScope, enterScope, exitScope, initBF, hb, hc]

/-- C3 witness: the undefined-read contract at a concrete identifier
and a concrete two-read module. -/
theorem c3_undefined_read_witness :
    ("frobnicate" ∉ ["print"] ∧ "frobnicate" ∉ commonModules ∧
      noStoreStmts "frobnicate"
        [.exprStmt (.name "frobnicate" .load 2) 2,
         .assign [.name "keep" .store 3] (.name "frobnicate" .load 3) 3] =
        true) ∧
    (bugAnalyze ["print"]
        (.ok [.exprStmt (.name "frobnicate" .load 2) 2,
              .assign [.name "keep" .store 3]
                (.name "frobnicate" .load 3) 3])).filter
      (isUndefFor "frobnicate") =
      [undefinedFinding "frobnicate" 2, undefinedFinding "frobnicate" 3] ∧
    bugAnalyze ["print"] (.ok [.exprStmt (.name "frobnicate" .load 2) 2]) =
      [undefinedFinding "frobnicate" 2] ∧
    bugAnalyze ["print"]
      (.ok [.assign [.name "frobnicate" .store 1] (.numConst 1) 1,
            .exprStmt (.name "frobnicate" .load 2) 2]) = [] := by
  obtain ⟨h1, h2, h3⟩ :=
    c3_undefined_read ["print"] "frobnicate"
      [.exprStmt (.name "frobnicate" .load 2) 2,
       .assign [.name "keep" .store 3] (.name "frobnicate" .load 3) 3]
      1 2 (by decide) (by decide) (by decide)
  refine ⟨⟨by decide, by decide, by decide⟩, ?_, h2, h3⟩
  rw [h1]
  decide

/-- C10: a name in delete position is neither bound into any scope nor
reported: `del x` for a never-bound `x` yields no finding, a later read
of `x` is still reported as undefined (so `del` bound nothing), and
visiting a delete-context name leaves the traversal state unchanged. -/
theorem c10_delete_context (b : List String) (x : String) (ln ln2 : Nat)
    (hb : x ∉ b) (hc : x ∉ commonModules) :
    bugAnalyze b (.ok [.delStmt [.name x .del ln] ln]) = [] ∧
    bugAnalyze b
      (.ok [.delStmt [.name x .del ln] ln,
            .exprStmt (.name x .load ln2) ln2]) =
      [undefinedFinding x ln2] ∧
    ∀ st : BFState, bfExpr b st (.name x .del ln) = st := by
  refine ⟨?_, ?_, fun st => by simp [bfExpr]⟩
  · simp [bugAnalyze, bfStmts, bfStmt, bfExpr, bfExprs,
      enterScope, exitScope, initBF]
  · simp [bugAnalyze, bfStmts, bfStmt, bfExpr, bfExprs, isDefined,
      enterScope, exitScope, initBF, hb, hc]

/-- C10 witness: the delete-position contract at a concrete identifier. -/
theorem c10_delete_context_witness :
    ("ghost" ∉ ["print"] ∧ "ghost" ∉ commonModules) ∧
    bugAnalyze ["print"] (.ok [.delStmt [.name "ghost" .del 1] 1]) = [] ∧
    bugAnalyze ["print"]
      (.ok [.delStmt [.name "ghost" .del 1] 1,
            .exprStmt (.name "ghost" .load 2) 2]) =
      [undefinedFinding "ghost" 2] ∧
    bfExpr ["print"] initBF (.name "ghost" .del 1) = initBF := by
  obtain ⟨h1, h2, h3⟩ :=
    c10_delete_context ["print"] "ghost" 1 2 (by decide) (by decide)
  exact ⟨⟨by decide, by decide⟩, h1, h2, h3 initBF⟩

/-- C7 counterexample: the module `helper()` on line 1, `def helper():
pass` on line 2 — a read of a function's name at a line before its
definition IS flagged as an undefined variable (the declared-symbols
registry is only filled when the definition node is visited, in
document order), contradicting whole-file hoisting. -/
theorem c7_counterexample :
    bugAnalyze ["print", "len"]
      (.ok [.exprStmt (.call (.name "helper" .load 1) [] 1) 1,
            .functionDef "helper" [] [.passStmt 2] 2]) =
      [undefinedFinding "helper" 1] := by
  decide

/-- C7 (amended): a function or class definition's name enters the
persistent `defined_functions` registry when its definition node is
visited, so a read of the name is not flagged anywhere later in
document order (even after the definition's scope is popped) — but a
read earlier in document order, whether at module level before the
definition or inside an earlier-defined function's body, is still
flagged as an undefined variable. -/
theorem c7_definition_visibility (b : List String) (f g : String)
    (ln1 ln2 ln3 : Nat)
    (hb : f ∉ b) (hc : f ∉ commonModules) (hfg : g ≠ f) :
    bugAnalyze b
      (.ok [.functionDef f [] [.passStmt ln1] ln1,
            .exprStmt (.call (.name f .load ln2) [] ln2) ln2]) = [] ∧
    bugAnalyze b
      (.ok [.exprStmt (.call (.name f .load ln1) [] ln1) ln1,
            .functionDef f [] [.passStmt ln2] ln2]) =
      [undefinedFinding f ln1] ∧
    bugAnalyze b
      (.ok [.functionDef g []
              [.exprStmt (.call (.name f .load ln2) [] ln2) ln2] ln1,
            .functionDef f [] [.passStmt ln3] ln3]) =
      [undefinedFinding f ln2] := by
  refine ⟨?_, ?_, ?_⟩ <;>
    simp [bugAnalyze, bfStmts, bfStmt, bfExpr, bfExprs, isDefined,
      enterScope, exitScope, initBF, hb, hc, hfg, Ne.symm hfg]

/-- C7 witness: the amended visibility contract at concrete names. -/
theorem c7_definition_visibility_witness :
    ("mk_thing" ∉ ["print"] ∧ "mk_thing" ∉ commonModules ∧
      "caller" ≠ "mk_thing") ∧
    bugAnalyze ["print"]
      (.ok [.functionDef "mk_thing" [] [.passStmt 1] 1,
            .exprStmt (.call (.name "mk_thing" .load 2) [] 2) 2]) = [] ∧
    bugAnalyze ["print"]
      (.ok [.exprStmt (.call (.name "mk_thing" .load 1) [] 1) 1,
            .functionDef "mk_thing" [] [.passStmt 2] 2]) =
      [undefinedFinding "mk_thing" 1] ∧
    bugAnalyze ["print"]
      (.ok [.functionDef "caller" []
              [.exprStmt (.call (.name "mk_thing" .load 2) [] 2) 2] 1,
            .functionDef "mk_thing" [] [.passStmt 4] 4]) =
      [undefinedFinding "mk_thing" 2] :=
  ⟨⟨by decide, by decide, by decide⟩,
    c7_definition_visibility ["print"] "mk_thing" "caller" 1 2 4
      (by decide) (by decide) (by decide)⟩

/-- C8 counterexample: visiting `[1 for i in xs]` pushes no
comprehension scope — afterwards the iteration variable `i` sits in the
scope that was current before the comprehension (the stack is
`[["i"], []]`, not restored), and a module-level read of `i` after the
comprehension yields no undefined-variable finding, contradicting the
claim that `i` is confined to a comprehension scope. -/
theorem c8_counterexample :
    (bfStmt ["print"] (enterScope initBF)
        (.exprStmt (.listComp (.numConst 1)
          [.mk (.name "i" .store 1) (.name "xs" .load 1) []] 1) 1)).scopeStack
      = [["i"], []] ∧
    bugAnalyze ["print"]
      (.ok [.assign [.name "xs" .store 1] (.numConst 1) 1,
            .exprStmt (.listComp (.numConst 2)
              [.mk (.name "i" .store 2) (.name "xs" .load 2) []] 2) 2,
            .exprStmt (.name "i" .load 3) 3]) = [] := by
  constructor <;> decide

/-- C8 (amended): entering the module root, a function definition, or a
class definition pushes a scope that is popped on leaving — a name
assigned inside a function or class body is not visible after it — but
comprehensions push no scope: a comprehension's iteration variable is
bound into the enclosing scope and remains visible after the
comprehension. -/
theorem c8_scope_stack (b : List String) (f y : String) (ln1 ln2 ln3 : Nat)
    (hb : y ∉ b) (hc : y ∉ commonModules) (hfy : f ≠ y) :
    bugAnalyze b
      (.ok [.functionDef f []
              [.assign [.name y .store ln2] (.numConst ln2) ln2] ln1,
            .exprStmt (.name y .load ln3) ln3]) =
      [undefinedFinding y ln3] ∧
    bugAnalyze b
      (.ok [.classDef f []
              [.assign [.name y .store ln2] (.numConst ln2) ln2] ln1,
            .exprStmt (.name y .load ln3) ln3]) =
      [undefinedFinding y ln3] ∧
    bugAnalyze b
      (.ok [.assign [.name f .store ln1] (.numConst ln1) ln1,
            .exprStmt (.listComp (.numConst ln2)
              [.mk (.name y .store ln2) (.name f .load ln2) []] ln2) ln2,
            .exprStmt (.name y .load ln3) ln3]) = [] := by
  refine ⟨?_, ?_, ?_⟩ <;>
    simp [bugAnalyze, bfStmts, bfStmt, bfExpr, bfExprs, bfComps, isDefined,
      addToCurrentScope, enterScope, exitScope, initBF, hb, hc, hfy,
      Ne.symm hfy]

/-- C8 witness: the amended scope contract at concrete names. -/
theorem c8_scope_stack_witness :
    ("tmp" ∉ ["print"] ∧ "tmp" ∉ commonModules ∧ "box" ≠ "tmp") ∧
    bugAnalyze ["print"]
      (.ok [.functionDef "box" []
              [.assign [.name "tmp" .store 2] (.numConst 2) 2] 1,
            .exprStmt (.name "tmp" .load 3) 3]) =
      [undefinedFinding "tmp" 3] ∧
    bugAnalyze ["print"]
      (.ok [.classDef "box" []
              [.assign [.name "tmp" .store 2] (.numConst 2) 2] 1,
            .exprStmt (.name "tmp" .load 3) 3]) =
      [undefinedFinding "tmp" 3] ∧
    bugAnalyze ["print"]
      (.ok [.assign [.name "box" .store 1] (.numConst 1) 1,
            .exprStmt (.listComp (.numConst 2)
              [.mk (.name "tmp" .store 2) (.name "box" .load 2) []] 2) 2,
            .exprStmt (.name "tmp" .load 3) 3]) = [] :=
  ⟨⟨by decide, by decide, by decide⟩,
    c8_scope_stack ["print"] "box" "tmp" 1 2 3 (by decide) (by decide)
      (by decide)⟩

/-- A line on which all four per-line style checks are silent produces
no finding: length within 79, no trailing whitespace, indentation a
multiple of 4 (or a blank line), and only snake_case/PascalCase
assignment-like identifiers. -/
theorem styleLine_clean (i : Nat) (l : List Char)
    (h1 : (pyRstrip l).length ≤ 79) (h2 : pyRstrip l = l)
    (h3 : (l.takeWhile pyIsSpace).length % 4 = 0 ∨ hasContent l = false)
    (h4 : ∀ v ∈ findAssignLikeVars l,
      isSnakeCase v = true ∨ isPascalCase v = true) :
    styleLine i l = [] := by
  have hlen : ¬ (79 < (pyRstrip l).length) := by omega
  have hind : (((l.takeWhile pyIsSpace).length % 4 != 0) && hasContent l)
      = false := by
    rcases h3 with h | h <;> simp [h]
  have htr : ((pyRstrip l != l) && hasContent l) = false := by
    simp [h2]
  simp [styleLine, hlen, hind, htr]
  intro v hv hs
  rcases h4 v hv with h | h
  · rw [h] at hs; cases hs
  · exact h

/-- The per-line loop produces nothing when every line is clean,
whatever the starting line number. -/
theorem styleLines_clean (ls : List (List Char))
    (h : ∀ l ∈ ls,
      (pyRstrip l).length ≤ 79 ∧ pyRstrip l = l ∧
      ((l.takeWhile pyIsSpace).length % 4 = 0 ∨ hasContent l = false) ∧
      ∀ v ∈ findAssignLikeVars l,
        isSnakeCase v = true ∨ isPascalCase v = true) :
    ∀ i, styleLines i ls = [] := by
  induction ls with
  | nil => intro i; rfl
  | cons l ls ih =>
    intro i
    obtain ⟨h1, h2, h3, h4⟩ := h l (by simp)
    have := ih fun l' hm => h l' (by simp [hm])
    simp [styleLines, styleLine_clean i l h1 h2 h3 h4, this]

/-- C9 counterexample: the line `" x = 1"` is within 79 characters, has
no trailing whitespace, and its only assignment-like identifier `x` is
snake_case, yet the Style analyzer reports a finding (the indentation
check fires: 1 leading space is not a multiple of 4). -/
theorem c9_counterexample : styleAnalyze " x = 1" ≠ [] := by
  decide

/-- C9 (amended): for every input whose lines are all within 79
characters (ignoring trailing whitespace), free of trailing whitespace,
indented by a multiple of 4 (or blank), and whose assignment-like
identifiers are all snake_case or PascalCase, the Style analyzer
returns no findings. -/
theorem c9_style_clean (code : String)
    (h : ∀ l ∈ splitLines code.toList,
      (pyRstrip l).length ≤ 79 ∧ pyRstrip l = l ∧
      ((l.takeWhile pyIsSpace).length % 4 = 0 ∨ hasContent l = false) ∧
      ∀ v ∈ findAssignLikeVars l,
        isSnakeCase v = true ∨ isPascalCase v = true) :
    styleAnalyze code = [] := by
  unfold styleAnalyze
  exact styleLines_clean _ h 1

/-- C9 witness: a concrete compliant file analyzed to no findings. -/
theorem c9_style_clean_witness :
    (∀ l ∈ splitLines "def add(a, b):\n    return a + b\n\nBig = add(1, 2)".toList,
      (pyRstrip l).length ≤ 79 ∧ pyRstrip l = l ∧
      ((l.takeWhile pyIsSpace).length % 4 = 0 ∨ hasContent l = false) ∧
      ∀ v ∈ findAssignLikeVars l,
        isSnakeCase v = true ∨ isPascalCase v = true) ∧
    styleAnalyze "def add(a, b):\n    return a + b\n\nBig = add(1, 2)" = [] := by
  refine ⟨by decide, c9_style_clean _ (by decide)⟩

/-- Membership in a stable insertion is membership in the parts. -/
theorem mem_orderedInsertF (x z : Finding) (l : List Finding) :
    z ∈ orderedInsertF x l ↔ z = x ∨ z ∈ l := by
  induction l with
  | nil => simp [orderedInsertF]
  | cons y l ih =>
    rw [orderedInsertF]
    split
    · simp [List.mem_cons]
    · simp [List.mem_cons, ih]
      tauto

/-- `sortFindings` permutes its input (membership version). -/
theorem mem_sortFindings (z : Finding) (l : List Finding) :
    z ∈ sortFindings l ↔ z ∈ l := by
  induction l with
  | nil => simp [sortFindings]
  | cons x l ih =>
    rw [sortFindings, mem_orderedInsertF]
    simp [ih]

/-- Stable insertion preserves `findingOrder`-sortedness when the
inserted element ties no earlier than every equal-line element. -/
theorem pairwise_orderedInsertF (x : Finding) (l : List Finding)
    (hl : l.Pairwise findingOrder)
    (hx : ∀ y ∈ l, tieOrder x y) :
    (orderedInsertF x l).Pairwise findingOrder := by
  induction l with
  | nil => simp [orderedInsertF, findingOrder, List.pairwise_singleton]
  | cons y l ih =>
    rw [orderedInsertF]
    rcases List.pairwise_cons.mp hl with ⟨hy, hl'⟩
    by_cases hxy : x.line ≤ y.line
    · rw [if_pos hxy]
      refine List.pairwise_cons.mpr ⟨?_, hl⟩
      intro z hz
      rcases List.mem_cons.mp hz with rfl | hz'
      · exact ⟨hxy, hx z (by simp)⟩
      · exact ⟨le_trans hxy (hy z hz').1, hx z (by simp [hz'])⟩
    · rw [if_neg hxy]
      refine List.pairwise_cons.mpr
        ⟨?_, ih hl' fun z hz => hx z (by simp [hz])⟩
      intro z hz
      rcases (mem_orderedInsertF x z l).mp hz with rfl | hz'
      · exact ⟨by omega, fun hEq => absurd hEq (by omega)⟩
      · exact hy z hz'

/-- A stable sort by line of a list whose ties are already in analyzer
order is `findingOrder`-sorted. -/
theorem pairwise_sortFindings (l : List Finding)
    (h : l.Pairwise tieOrder) :
    (sortFindings l).Pairwise findingOrder := by
  induction l with
  | nil => simp [sortFindings]
  | cons x l ih =>
    rw [sortFindings]
    rcases List.pairwise_cons.mp h with ⟨hx, hl⟩
    exact pairwise_orderedInsertF x _ (ih hl)
      fun y hy => hx y ((mem_sortFindings y l).mp hy)

/-- A block of findings tagged with one analyzer name is trivially in
tie order. -/
theorem pairwise_tie_tagged (nm : String) (l : List Finding) :
    (l.map (tagFinding nm)).Pairwise tieOrder := by
  induction l with
  | nil => simp
  | cons a l ih =>
    rw [List.map_cons]
    refine List.pairwise_cons.mpr ⟨?_, ih⟩
    intro z hz
    rcases List.mem_map.mp hz with ⟨w, _, rfl⟩
    intro _
    simp [tagFinding]

/-- Concatenating tie-ordered blocks with non-decreasing analyzer ranks
stays tie-ordered. -/
theorem pairwise_tie_append (l₁ l₂ : List Finding)
    (h₁ : l₁.Pairwise tieOrder) (h₂ : l₂.Pairwise tieOrder)
    (h : ∀ u ∈ l₁, ∀ v ∈ l₂,
      analyzerRank u.analyzer ≤ analyzerRank v.analyzer) :
    (l₁ ++ l₂).Pairwise tieOrder := by
  exact List.pairwise_append.mpr ⟨h₁, h₂, fun u hu v hv _ => h u hu v hv⟩

/-- Every element of a tagged block carries that block's tag. -/
theorem analyzer_of_mem_tagged (nm : String) (l : List Finding)
    (u : Finding) (hu : u ∈ l.map (tagFinding nm)) : u.analyzer = nm := by
  rcases List.mem_map.mp hu with ⟨w, _, rfl⟩
  rfl

/-- C4 counterexample: on `for i in range(3):\n    xs.append(99)` (a
`.py` file) the Performance analyzer faults, `_analyze_file` appends the
line-0 error finding after the Bug analyzer's line-2 finding and skips
the sort — the resulting findings list is not ascending by line. -/
theorem c4_counterexample :
    ¬ (analyzeFile ["range", "print"] "t.py" c4Content "").issues.Pairwise
        (fun u v => u.line ≤ v.line) := by
  decide

/-- C4 (amended): for every analyzed file on which no analyzer raises,
the findings list is sorted by line ascending with ties in the fixed
analyzer-invocation order style, bugs, performance, best_practices; and
the whole per-file analysis is a pure function of the input, so
re-running it on identical input reproduces the identical list. -/
theorem c4_sorted_deterministic (b : List String) (fn : String)
    (c : Content) (patch : String) (r : List Finding)
    (h : perfAnalyze c.parsed = .ok r) :
    (analyzeFile b fn c patch).issues.Pairwise findingOrder ∧
    analyzeFile b fn c patch = analyzeFile b fn c patch := by
  refine ⟨?_, rfl⟩
  unfold analyzeFile
  by_cases hf : shouldAnalyzeFile fn
  · have hloop : runAnalyzerLoop (fileAnalyzers b) c [] =
        ((((([] ++ (styleAnalyze c.text).map (tagFinding "style")) ++
          (bugAnalyze b c.parsed).map (tagFinding "bugs")) ++
          r.map (tagFinding "performance")) ++
          (bestAnalyze c.parsed).map (tagFinding "best_practices")), none) := by
      simp [fileAnalyzers, runAnalyzerLoop, h]
    simp only [List.nil_append] at hloop
    rw [hf]
    simp only [Bool.not_true, Bool.false_eq_true, if_false, hloop]
    apply pairwise_sortFindings
    refine pairwise_tie_append _ _ ?_ (pairwise_tie_tagged _ _) ?_
    · refine pairwise_tie_append _ _ ?_ (pairwise_tie_tagged _ _) ?_
      · refine pairwise_tie_append _ _ (pairwise_tie_tagged _ _)
          (pairwise_tie_tagged _ _) ?_
        intro u hu v hv
        rw [analyzer_of_mem_tagged _ _ u hu, analyzer_of_mem_tagged _ _ v hv]
        decide
      · intro u hu v hv
        rw [analyzer_of_mem_tagged _ _ v hv]
        rcases List.mem_append.mp hu with h' | h' <;>
          rw [analyzer_of_mem_tagged _ _ u h'] <;> decide
    · intro u hu v hv
      rw [analyzer_of_mem_tagged _ _ v hv]
      rcases List.mem_append.mp hu with h' | h'
      · rcases List.mem_append.mp h' with h'' | h'' <;>
          rw [analyzer_of_mem_tagged _ _ u h''] <;> decide
      · rw [analyzer_of_mem_tagged _ _ u h']
        decide
  · simp only [Bool.not_eq_true] at hf
    simp [hf]

/-- C4 witness: the ordering contract at a concrete fault-free file. -/
theorem c4_sorted_deterministic_witness :
    perfAnalyze c4CleanContent.parsed = .ok [] ∧
    (analyzeFile ["print"] "w.py" c4CleanContent "").issues.Pairwise
      findingOrder ∧
    analyzeFile ["print"] "w.py" c4CleanContent "" =
      analyzeFile ["print"] "w.py" c4CleanContent "" :=
  ⟨rfl, (c4_sorted_deterministic ["print"] "w.py" c4CleanContent "" [] rfl).1,
    (c4_sorted_deterministic ["print"] "w.py" c4CleanContent "" [] rfl).2⟩

/-- C1 counterexample: on a `.py` file with a docstring-less function
followed by a single-statement loop, the Performance analyzer faults;
the aggregator appends one error finding, but the Best-Practices
analyzer — which has findings for this file — never runs: its findings
are missing from the result, contradicting "the remaining analyzers
still run and their findings for that file are unaffected". -/
theorem c1_counterexample :
    bestAnalyze c1Content.parsed ≠ [] ∧
    (analyzeFile ["range", "print"] "pr.py" c1Content "").issues.countP
      (fun fd => fd.analyzer == "best_practices") = 0 ∧
    (analyzeFile ["range", "print"] "pr.py" c1Content "").issues.countP
      (fun fd => fd.type == "error") = 1 := by
  refine ⟨by decide, by decide, by decide⟩

/-- C1 (amended): if an analyzer raises an unexpected failure, the
Aggregator catches it, discards that analyzer's partial output, appends
exactly one finding with category=error, line=0, severity=high
describing the fault after the retained findings of the analyzers that
already ran, skips the remaining analyzers for that file (and the final
line sort), and returns normally so later files continue unaffected.
(In this embedding the faulting analyzer is the Performance pass, the
only one that can raise on a parsed tree.) -/
theorem c1_fault_isolation (b : List String) (fn : String) (c : Content)
    (patch msg : String)
    (h1 : shouldAnalyzeFile fn = true)
    (h2 : perfAnalyze c.parsed = .error msg) :
    analyzeFile b fn c patch =
      ⟨fn, ((styleAnalyze c.text).map (tagFinding "style") ++
        ((bugAnalyze b c.parsed).map (tagFinding "bugs") ++
          [errorFinding msg])), patch⟩ := by
  simp [analyzeFile, h1, fileAnalyzers, runAnalyzerLoop, h2]

/-- C1 witness: the fault-isolation contract at a concrete file. -/
theorem c1_fault_isolation_witness :
    shouldAnalyzeFile "pr.py" = true ∧
    perfAnalyze c1Content.parsed = .error astAppendError ∧
    analyzeFile ["range", "print"] "pr.py" c1Content "" =
      ⟨"pr.py", ((styleAnalyze c1Content.text).map (tagFinding "style") ++
        ((bugAnalyze ["range", "print"] c1Content.parsed).map
          (tagFinding "bugs") ++ [errorFinding astAppendError])), ""⟩ :=
  ⟨by decide, rfl,
    c1_fault_isolation ["range", "print"] "pr.py" c1Content "" astAppendError
      (by decide) rfl⟩

/-- Reading a dict after a write: the written key returns the written
value, other keys are unaffected. -/
theorem dictGet_dictSet (d : List (String × Nat)) (k cat : String) (v : Nat) :
    dictGet (dictSet d k v) cat 0 = if k = cat then v else dictGet d cat 0 := by
  induction d with
  | nil => simp [dictGet, dictSet, beq_iff_eq]
  | cons p d ih =>
    obtain ⟨k', v'⟩ := p
    by_cases h1 : k' = k
    · subst h1
      simp only [dictSet, beq_self_eq_true, if_true, dictGet, beq_iff_eq]
      by_cases h2 : k' = cat <;> simp [h2]
    · simp only [dictSet, beq_iff_eq, h1, if_false, dictGet, ih]
      by_cases h2 : k' = cat
      · subst h2
        simp [Ne.symm h1]
      · simp [h2]

/-- The per-issue fold of `_update_summary_stats` leaves
`total_files`/`total_issues` alone and accumulates the critical and
per-category counts. -/
theorem foldl_updateSummaryIssue (issues : List Finding) : ∀ s : Summary,
    (issues.foldl updateSummaryIssue s).total_files = s.total_files ∧
    (issues.foldl updateSummaryIssue s).total_issues = s.total_issues ∧
    (issues.foldl updateSummaryIssue s).critical_issues =
      s.critical_issues + issues.countP
        (fun i => i.severity == "high" || i.severity == "critical") ∧
    ∀ cat, dictGet (issues.foldl updateSummaryIssue s).issues_by_type cat 0 =
      dictGet s.issues_by_type cat 0 + issues.countP (fun i => i.type == cat)
    := by
  induction issues with
  | nil => intro s; simp
  | cons i rest ih =>
    intro s
    obtain ⟨ihf, ihi, ihc, ihd⟩ := ih (updateSummaryIssue s i)
    have hstep_crit : (updateSummaryIssue s i).critical_issues =
        s.critical_issues +
          (if (i.severity == "high" || i.severity == "critical") = true
            then 1 else 0) := by
      unfold updateSummaryIssue
      split <;> simp_all
    have hstep_dict : ∀ cat,
        dictGet (updateSummaryIssue s i).issues_by_type cat 0 =
          dictGet s.issues_by_type cat 0 +
            (if (i.type == cat) = true then 1 else 0) := by
      intro cat
      have hd : (updateSummaryIssue s i).issues_by_type =
          dictSet s.issues_by_type i.type
            (dictGet s.issues_by_type i.type 0 + 1) := by
        unfold updateSummaryIssue
        split <;> rfl
      rw [hd, dictGet_dictSet]
      by_cases h : i.type = cat
      · subst h; simp
      · simp [h, fun hb => h (by simpa [beq_iff_eq] using hb)]
    have hstep_tf : (updateSummaryIssue s i).total_files = s.total_files := by
      unfold updateSummaryIssue
      split <;> rfl
    have hstep_ti : (updateSummaryIssue s i).total_issues = s.total_issues := by
      unfold updateSummaryIssue
      split <;> rfl
    refine ⟨by simp [List.foldl_cons, ihf, hstep_tf],
      by simp [List.foldl_cons, ihi, hstep_ti], ?_, ?_⟩
    · rw [List.foldl_cons, ihc, hstep_crit, List.countP_cons]
      omega
    · intro cat
      rw [List.foldl_cons, ihd cat, hstep_dict cat, List.countP_cons]
      omega

/-- `_update_summary_stats` adds the file's finding count to
`total_issues` and accumulates the critical and per-category counts,
leaving `total_files` alone. -/
theorem updateSummaryStats_spec (s : Summary) (issues : List Finding) :
    (updateSummaryStats s issues).total_files = s.total_files ∧
    (updateSummaryStats s issues).total_issues =
      s.total_issues + issues.length ∧
    (updateSummaryStats s issues).critical_issues =
      s.critical_issues + issues.countP
        (fun i => i.severity == "high" || i.severity == "critical") ∧
    ∀ cat, dictGet (updateSummaryStats s issues).issues_by_type cat 0 =
      dictGet s.issues_by_type cat 0 + issues.countP (fun i => i.type == cat)
    := by
  unfold updateSummaryStats
  obtain ⟨h1, h2, h3, h4⟩ := foldl_updateSummaryIssue issues
    { s with total_issues := s.total_issues + issues.length }
  exact ⟨h1, h2, h3, h4⟩

/-- The `analyze_pr` loop appends the analyzed files' results and folds
their findings into the summary; `total_files` never changes after
initialization. -/
theorem analyzePRGo_spec (b : List String) :
    ∀ (fs : List PRFile) (acc : List FileResult) (s : Summary),
      ∃ new : List FileResult,
        (analyzePRGo b fs acc s).1 = acc ++ new ∧
        (analyzePRGo b fs acc s).2.total_files = s.total_files ∧
        (analyzePRGo b fs acc s).2.total_issues =
          s.total_issues + ((new.map (·.issues)).flatten).length ∧
        (analyzePRGo b fs acc s).2.critical_issues =
          s.critical_issues + ((new.map (·.issues)).flatten).countP
            (fun i => i.severity == "high" || i.severity == "critical") ∧
        ∀ cat, dictGet (analyzePRGo b fs acc s).2.issues_by_type cat 0 =
          dictGet s.issues_by_type cat 0 +
            ((new.map (·.issues)).flatten).countP (fun i => i.type == cat)
    := by
  intro fs
  induction fs with
  | nil => intro acc s; exact ⟨[], by simp [analyzePRGo]⟩
  | cons f rest ih =>
    intro acc s
    by_cases hrm : f.status == "removed"
    · have : analyzePRGo b (f :: rest) acc s = analyzePRGo b rest acc s := by
        rw [analyzePRGo, if_pos hrm]
      rw [this]; exact ih acc s
    · cases hc : f.content with
      | none =>
        have : analyzePRGo b (f :: rest) acc s = analyzePRGo b rest acc s := by
          rw [analyzePRGo, if_neg hrm, hc]
        rw [this]; exact ih acc s
      | some c =>
        have hstep : analyzePRGo b (f :: rest) acc s =
            analyzePRGo b rest (acc ++ [analyzeFile b f.filename c f.patch])
              (updateSummaryStats s
                (analyzeFile b f.filename c f.patch).issues) := by
          rw [analyzePRGo, if_neg hrm, hc]
        set fr := analyzeFile b f.filename c f.patch with hfr
        obtain ⟨new, g1, g2, g3, g4, g5⟩ :=
          ih (acc ++ [fr]) (updateSummaryStats s fr.issues)
        obtain ⟨u1, u2, u3, u4⟩ := updateSummaryStats_spec s fr.issues
        refine ⟨fr :: new, ?_, ?_, ?_, ?_, ?_⟩
        · rw [hstep, g1]; simp
        · rw [hstep, g2, u1]
        · rw [hstep, g3, u2]
          simp [List.length_append]
          omega
        · rw [hstep, g4, u3]
          simp [List.countP_append]
          omega
        · intro cat
          rw [hstep, g5 cat, u4 cat]
          simp [List.countP_append]
          omega

/-- Every category reads as zero from the freshly initialized
`issues_by_type` dict. -/
theorem dictGet_initSummary (n : Nat) (cat : String) :
    dictGet (initSummary n).issues_by_type cat 0 = 0 := by
  unfold initSummary
  simp only [dictGet]
  split_ifs <;> rfl

/-- C6 counterexample: a PR whose single listed file has status
`removed` produces no FileResult, yet `total_files` is 1 — it counts the
PR listing (`len(pr_files)`), not the FileResults in the batch. -/
theorem c6_counterexample :
    (analyzePR [] [c6RemovedFile]).summary.total_files ≠
      (analyzePR [] [c6RemovedFile]).files.length := by
  decide

/-- C6 (amended): `total_files` equals the length of the PR file
listing (which can exceed the number of FileResults when files are
removed or unreadable); `total_findings` equals the sum of per-file
finding counts over the produced FileResults, `critical_findings`
counts the findings of severity high or critical, and
`findings_by_category` maps every category to its finding count with
unseen categories defaulting to zero; reducing two FileResults with
finding counts 2 and 3, one finding of severity high, yields
`total_issues = 5` and `critical_issues = 1`. -/
theorem c6_summary_consistency (b : List String) (prFiles : List PRFile) :
    (analyzePR b prFiles).summary.total_files = prFiles.length ∧
    (analyzePR b prFiles).summary.total_issues =
      ((analyzePR b prFiles).files.map (fun fr => fr.issues.length)).sum ∧
    (analyzePR b prFiles).summary.critical_issues =
      (((analyzePR b prFiles).files.map (fun fr => fr.issues)).flatten).countP
        (fun i => i.severity == "high" || i.severity == "critical") ∧
    (∀ cat, dictGet (analyzePR b prFiles).summary.issues_by_type cat 0 =
      (((analyzePR b prFiles).files.map (fun fr => fr.issues)).flatten).countP
        (fun i => i.type == cat)) ∧
    (updateSummaryStats (updateSummaryStats (initSummary 2) c6IssuesA)
        c6IssuesB).total_issues = 5 ∧
    (updateSummaryStats (updateSummaryStats (initSummary 2) c6IssuesA)
        c6IssuesB).critical_issues = 1 := by
  obtain ⟨new, g1, g2, g3, g4, g5⟩ :=
    analyzePRGo_spec b prFiles [] (initSummary prFiles.length)
  have hfiles : (analyzePR b prFiles).files = new := by
    simp [analyzePR] at g1 ⊢
    exact g1
  have hsum : (analyzePR b prFiles).summary =
      (analyzePRGo b prFiles [] (initSummary prFiles.length)).2 := by
    simp [analyzePR]
  refine ⟨?_, ?_, ?_, ?_, by decide, by decide⟩
  · rw [hsum, g2]; rfl
  · rw [hsum, g3, hfiles]
    simp only [initSummary, List.length_flatten, Nat.zero_add]
    rw [List.map_map]
    rfl
  · rw [hsum, g4, hfiles]
    simp [initSummary]
  · intro cat
    rw [hsum, g5 cat, hfiles, dictGet_initSummary]
    simp

